import Mathlib

/-!
Verification of the Mayavi pipeline-node base class
(`enthought/mayavi/core/base.py`) and the figure helpers
(`enthought/mayavi/tools/figure.py`).

The `Base` class is shallowly embedded as a Lean structure carrying the
traits relevant to persistence and lifecycle: `name`, `visible`,
`_is_running`, `_saved_state`, `parent` and `children`.  Traits of the
Python class that no verified property touches (`scene`, `type`, `icon`,
the menu machinery, `menu_helper`, `_icon_path`) are omitted.  The
external serialization collaborators (`enthought.persistence.state_pickler`
and `cPickle`) are opaque third-party libraries; they are embedded as an
abstract record of functions (`StatePickler`), so every theorem below is
quantified over all possible behaviours of the serializer.

Stateful Python methods become pure functions from the old node to the new
node.  Methods that can apply a saved state additionally return a list of
application events: one entry per invocation of
`__set_pure_state__`/`state_pickler.set_state` inside `_load_saved_state`,
recording the value of the node's `running` flag at the moment the state
is applied.  This makes the guard discipline of the source directly
observable in the embedding.
-/

/-- The `Base` pipeline node (`core/base.py`, class `Base`).  Fields are the
traits used by the verified properties, with the trait defaults of the
source: `name = Str('')`, `visible = Bool(True)`, `_is_running =
Bool(False)`, `_saved_state = Str('')`, `parent = WeakRef` (default
`None`).  The `children` trait is referenced by `_get_children_ui_list`
and `tno_delete_child` in `base.py` but declared only in subclasses that
are outside the provided sources; it is modelled from the spec sentence
listing "a list of children" as a component of every pipeline node, with
opaque child identifiers. -/
structure Base where
  name : String
  visible : Bool
  _is_running : Bool
  _saved_state : String
  parent : Option Nat
  children : List Nat
  deriving DecidableEq

/-- A freshly constructed `Base()`: all traits at their declared defaults. -/
def Base.init : Base :=
  { name := "", visible := true, _is_running := false, _saved_state := "",
    parent := none, children := [] }

/-- Getter of the `running` property (`Base._get_running`). -/
def Base.running (b : Base) : Bool := b._is_running

/-- Setter of the `running` property (`Base._set_running`): a no-op when the
value is unchanged, otherwise stores the new value (the accompanying trait
notification has no further effect on the modelled state). -/
def Base.set_running (b : Base) (new : Bool) : Base :=
  if b._is_running = new then b else { b with _is_running := new }

/-- Getter `Base._get_children_ui_list`: the base class adds nothing to the
children list. -/
def Base.children_ui_list (b : Base) : List Nat := b.children

/-- Method `Base.stop`: `self.running = False`. -/
def Base.stop (b : Base) : Base := b.set_running false

/-- Method `Base.remove_child` raises `NotImplementedError` and leaves the child
untouched. -/
def Base.remove_child (_self child : Base) : Except String Unit × Base :=
  (Except.error "NotImplementedError", child)

/-- Method `Base.remove`: `if self.parent is not None: self.parent.remove_child(self)`.
The parent's `remove_child` implementation (provided by whatever subclass
the parent is an instance of) is passed in as `f`, indexed by the parent
reference; the result is the raised-exception status together with the node
itself after the call. -/
def Base.remove (f : Nat → Base → Except String Unit × Base) (b : Base) :
    Except String Unit × Base :=
  match b.parent with
  | none => (Except.ok (), b)
  | some p => f p b

/-! ### The hide/show name suffix (`_visible_changed`, `_hideshow`) -/

/-- The characters of the name suffix `' [Hidden]'`. -/
def hiddenL : List Char := " [Hidden]".data

/-- Bool substring test, the embedding of Python's `pat in s` for strings:
`pat` occurs somewhere in the scanned list. -/
def hasSub (pat : List Char) : List Char → Bool
  | [] => pat.isEmpty
  | c :: rest => pat.isPrefixOf (c :: rest) || hasSub pat rest

/-- Python's `s in name` test for the hidden tag. -/
def containsHidden (s : String) : Bool := hasSub hiddenL s.data

/-- One left-to-right, non-overlapping replacement pass of
`str.replace(' [Hidden]', '')`, with explicit fuel (the fuel is always
instantiated with the length of the scanned list, which suffices). -/
def removeHiddenAux : Nat → List Char → List Char
  | 0, l => l
  | _ + 1, [] => []
  | fuel + 1, c :: rest =>
    if hiddenL.isPrefixOf (c :: rest) then
      removeHiddenAux fuel (rest.drop 8)
    else
      c :: removeHiddenAux fuel rest

/-- Python `name.replace(' [Hidden]', '')`: delete every left-to-right
non-overlapping occurrence of the tag. -/
def removeHidden (s : String) : String :=
  String.mk (removeHiddenAux s.data.length s.data)

/-- Python `"%s [Hidden]" % n`: append the tag to the name. -/
def appendHidden (s : String) : String := String.mk (s.data ++ hiddenL)

/-- Method `Base.tno_get_label`: sets `name` to the class name (here `Base`) when it
is empty, and returns the label. -/
def Base.tno_get_label (b : Base) : Base × String :=
  let b1 := if b.name = "" then { b with name := "Base" } else b
  (b1, b1.name)

/-- Handler `Base._visible_changed`: static trait-change handler for `visible`. -/
def Base._visible_changed (b : Base) (value : Bool) : Base :=
  let b1 := if b.name.data.length = 0 then (Base.tno_get_label b).1 else b
  if value then
    { b1 with name := removeHidden b1.name }
  else if containsHidden b1.name then
    b1
  else
    { b1 with name := appendHidden b1.name }

/-- Assignment `self.visible = v` with Traits semantics: the static handler
`_visible_changed` fires exactly when the value actually changes. -/
def Base.set_visible (b : Base) (v : Bool) : Base :=
  if b.visible = v then b else Base._visible_changed { b with visible := v } v

/-- Method `Base._hideshow`: toggle the `visible` trait. -/
def Base._hideshow (b : Base) : Base :=
  if b.visible then b.set_visible false else b.set_visible true

/-! ### The serialization collaborators and the persistence methods -/

/-- The external serialization machinery used by `base.py`: the functions of
`enthought.persistence.state_pickler` and `cPickle`, over an arbitrary type
`σ` of deserialized state objects.  The two `Prop` fields record the two
facts about the real collaborators that the source relies on:
`cPickle.dumps` never produces the empty string (a pickle always contains
at least its stop opcode, and the source uses emptiness of `_saved_state`
as the "no saved state" flag), and applying a state never changes
`_is_running`, because `__get_pure_state__` (in `base.py`) pops
`_is_running` out of every state dictionary before it is ever serialized,
so no state reaching `set_state` mentions the running flag. -/
structure StatePickler (σ : Type) where
  loads_state : String → σ
  update_state : σ → σ
  dumps : σ → String
  loads : String → σ
  get_state : Base → σ
  set_state : Base → σ → Base
  dumps_ne : ∀ s, dumps s ≠ ""
  set_state_keeps_running : ∀ b s, (set_state b s)._is_running = b._is_running

/-- Method `Base._load_saved_state`: when `_saved_state` is non-empty, unpickle it,
apply it to the node (`__set_pure_state__` when the object provides one,
else `state_pickler.set_state`; both are the abstract `set_state` here) and
reset `_saved_state` to the empty string.  The second component records one
application event carrying the node's `running` flag at the moment the
state is applied. -/
def Base._load_saved_state {σ : Type} (pk : StatePickler σ) (b : Base) :
    Base × List Bool :=
  let saved_state := b._saved_state
  if saved_state.data.length > 0 then
    let state := pk.loads saved_state
    let applied := pk.set_state b state
    ({ applied with _saved_state := "" }, [b._is_running])
  else
    (b, [])

/-- Method `Base.start`: `self.running = True` followed by `_load_saved_state`. -/
def Base.start {σ : Type} (pk : StatePickler σ) (b : Base) : Base × List Bool :=
  Base._load_saved_state pk (b.set_running true)

/-- Method `Base.__setstate__`: re-initialize (`self.__init__()` re-establishes the
trait defaults on the unpickling target), deserialize and update the state,
store it pickled in `_saved_state`, and load it only when `running` is
true. -/
def Base.setstate {σ : Type} (pk : StatePickler σ) (_b : Base)
    (str_state : String) : Base × List Bool :=
  let b1 := Base.init
  let state := pk.update_state (pk.loads_state str_state)
  let b2 := { b1 with _saved_state := pk.dumps state }
  if b2.running then Base._load_saved_state pk b2 else (b2, [])

/-- Method `Base.__deepcopy__`: build a fresh instance, give it our `_saved_state`
when non-empty and otherwise the pickled serialization of our current
state, and load it only when the new instance is running.  The original
node is not modified (the embedding returns only the new node because the
source method touches nothing on `self`). -/
def Base.deepcopy {σ : Type} (pk : StatePickler σ) (b : Base) :
    Base × List Bool :=
  let new := Base.init
  let saved_state :=
    if b._saved_state.data.length = 0 then pk.dumps (pk.get_state b)
    else b._saved_state
  let new1 := { new with _saved_state := saved_state }
  if new1.running then Base._load_saved_state pk new1 else (new1, [])

/-- The running/saved-state invariant: a running node carries no pending
saved state. -/
def Base.inv (b : Base) : Prop := b._is_running = true → b._saved_state = ""

/-! ### The figure helpers (`tools/figure.py`)

The mlab engine (`enthought.mayavi.engine`, reached through
`config.get_engine`) and the camera helper `view` are repository code that
is not among the provided sources; the engine is modelled from the spec as
the holder of the list of scenes and of the current scene, and `view` only
moves the camera, which is outside the modelled state.  The global engine
becomes an explicit `Engine` value threaded through the functions.  Python
exceptions are embedded as `Except` results paired with the engine state
reached at the moment of the raise (a raise does not roll back earlier
mutations). -/

/-- The only exception class this module raises or catches. -/
inductive PyError where
  | attributeError
  deriving DecidableEq

/-- The native TVTK render-window attached to a scene node (`fig.scene`),
with the attributes this module touches; colors are opaque values. -/
structure TvtkScene where
  background : Nat
  foreground : Nat
  disable_render : Bool
  deriving DecidableEq

/-- A Mayavi scene node as seen by `figure.py`: a name, the wrapped native
scene (`None` when no render window exists) and the pipeline children.
The `sid` field stands for the object's identity, letting the engine's
`current_scene` reference and its `scenes` list denote the same object. -/
structure MScene where
  sid : Nat
  name : String
  scene : Option TvtkScene
  children : List Nat
  deriving DecidableEq

/-- Modelled from the spec: the mlab engine (`config.get_engine`), which the
spec describes only as the session holder of rendering scenes.  It keeps
the registered scenes, the identity of the current scene (`None` when
there is no current scene) and a counter supplying fresh identities. -/
structure Engine where
  scenes : List MScene
  current : Option Nat
  next_sid : Nat
  deriving DecidableEq

/-- Accessor `engine.current_scene`: the registered scene the `current` reference
denotes, `None` when there is none. -/
def Engine.current_scene (e : Engine) : Option MScene :=
  match e.current with
  | none => none
  | some i => e.scenes.find? (fun s => s.sid == i)

/-- Modelled from the spec: `engine.new_scene()` creates a fresh scene with
a live render window, registers it and makes it the current scene. -/
def Engine.new_scene (e : Engine) : Engine :=
  { scenes := e.scenes ++
      [{ sid := e.next_sid, name := "TVTK Scene " ++ toString e.next_sid,
         scene := some { background := 0, foreground := 0, disable_render := false },
         children := [] }],
    current := some e.next_sid,
    next_sid := e.next_sid + 1 }

/-- In-place mutation of a scene object, reflected into the engine: every
registered scene with the same identity becomes the new value. -/
def Engine.update_scene (e : Engine) (s : MScene) : Engine :=
  { e with scenes := e.scenes.map (fun t => if t.sid == s.sid then s else t) }

/-- Well-formedness of the modelled engine: every registered identity is
below the freshness counter (so a scene created by `new_scene` is really
new). -/
def Engine.wf (e : Engine) : Prop := ∀ s ∈ e.scenes, s.sid < e.next_sid

/-- Modelled from the spec: `preference_manager.mlab.background_color`, an
opaque preference value. -/
def options_background_color : Nat := 0

/-- Modelled from the spec: `preference_manager.mlab.foreground_color`, an
opaque preference value. -/
def options_foreground_color : Nat := 0

/-- The `name` argument of `figure`: Python distinguishes `None`, an `int`
(formatted as `'TVTK Scene %d'`) and a string. -/
inductive FigName where
  | int (n : Int)
  | str (s : String)
  deriving DecidableEq

/-- Function `figure(name, background, foreground)`: retrieve the first registered
scene with the requested name, or create (and for a named request, rename)
a new scene; then set the background and foreground colors on the native
scene of the current scene and return that scene node.  `view(40, 50)`
only positions the camera and leaves the modelled state unchanged.
Accessing `.scene` on a missing render window, or `.name`/`.scene` on a
missing current scene, raises `AttributeError`. -/
def figure (e : Engine) (name : Option FigName)
    (background foreground : Option Nat) : Engine × Except PyError MScene :=
  let nm : Option String :=
    match name with
    | some (FigName.int n) => some ("TVTK Scene " ++ toString n)
    | some (FigName.str s) => some s
    | none => none
  let step : Engine × Except PyError Unit :=
    match nm with
    | some n =>
      match e.scenes.find? (fun s => s.name == n) with
      | some s => ({ e with current := some s.sid }, Except.ok ())
      | none =>
        let e1 := e.new_scene
        match e1.current_scene with
        | none => (e1, Except.error PyError.attributeError)
        | some cs => (e1.update_scene { cs with name := n }, Except.ok ())
    | none => (e.new_scene, Except.ok ())
  match step with
  | (e1, Except.error err) => (e1, Except.error err)
  | (e1, Except.ok _) =>
    match e1.current_scene with
    | none => (e1, Except.error PyError.attributeError)
    | some fig =>
      let bg := background.getD options_background_color
      let fg := foreground.getD options_foreground_color
      match fig.scene with
      | none => (e1, Except.error PyError.attributeError)
      | some tv =>
        let fig1 := { fig with
          scene := some { tv with background := bg, foreground := fg } }
        (e1.update_scene fig1, Except.ok fig1)

/-- Function `gcf()`: the current scene when the engine has one, otherwise the scene
created by `figure()`. -/
def gcf (e : Engine) : Engine × Except PyError MScene :=
  match e.current_scene with
  | none => figure e none none none
  | some s => (e, Except.ok s)

/-- The `try` block of `clf()`: fetch the current figure, disable rendering
on its native scene, empty its children list, re-enable rendering.  Each
step that dereferences a missing attribute raises, keeping the engine
state reached so far. -/
def clf_body (e : Engine) : Engine × Except PyError Unit :=
  match gcf e with
  | (e1, Except.error err) => (e1, Except.error err)
  | (e1, Except.ok s) =>
    match s.scene with
    | none => (e1, Except.error PyError.attributeError)
    | some tv =>
      let s1 := { s with scene := some { tv with disable_render := true } }
      let e2 := e1.update_scene s1
      let s2 := { s1 with children := [] }
      let e3 := e2.update_scene s2
      let s3 := { s2 with scene := some { tv with disable_render := false } }
      let e4 := e3.update_scene s3
      (e4, Except.ok ())

/-- Function `clf()`: the `try` block with `except AttributeError: pass`. -/
def clf (e : Engine) : Engine × Except PyError Unit :=
  match clf_body e with
  | (e1, Except.error PyError.attributeError) => (e1, Except.ok ())
  | r => r

/-! ### Helper lemmas about the hidden-name machinery -/

theorem hasSub_iff (pat : List Char) :
    ∀ l : List Char, hasSub pat l = true ↔ pat <:+: l
  | [] => by simp [hasSub, List.isEmpty_iff]
  | c :: rest => by
    simp [hasSub, hasSub_iff pat rest, List.infix_cons_iff]

theorem hiddenL_eq :
    hiddenL = [' ', '[', 'H', 'i', 'd', 'd', 'e', 'n', ']'] := rfl

theorem hiddenL_no_period :
    ∀ L : Fin 9, 1 ≤ L.val →
      hiddenL ≠ hiddenL.take L.val ++ hiddenL.take (9 - L.val) := by decide

/-- The hidden tag cannot straddle the boundary of `s ++ hiddenL`: a prefix
occurrence of the tag either lies inside `s` or `s` is empty. -/
theorem noStraddle (s : List Char) (h : hiddenL <+: s ++ hiddenL) :
    hiddenL <+: s ∨ s = [] := by
  have h9 : hiddenL.length = 9 := rfl
  have htake := List.prefix_iff_eq_take.mp h
  rw [h9, List.take_append_eq_append_take] at htake
  rcases Nat.lt_or_ge s.length 9 with hlt | hge
  · by_cases hs : s = []
    · exact Or.inr hs
    · exfalso
      have hpos : 0 < s.length := List.length_pos.mpr hs
      rw [List.take_of_length_le (Nat.le_of_lt hlt)] at htake
      -- htake : hiddenL = s ++ hiddenL.take (9 - s.length)
      have hsf : s = hiddenL.take s.length := by
        have h2 := congrArg (List.take s.length) htake
        rw [List.take_append_eq_append_take, List.take_length, Nat.sub_self,
          List.take_zero, List.append_nil] at h2
        exact h2.symm
      have hfin : hiddenL = hiddenL.take s.length ++ hiddenL.take (9 - s.length) := by
        rw [← hsf]; exact htake
      exact hiddenL_no_period ⟨s.length, hlt⟩ hpos hfin
  · left
    rw [Nat.sub_eq_zero_of_le hge, List.take_zero, List.append_nil] at htake
    rw [htake]
    exact List.take_prefix 9 s

theorem removeHiddenAux_nil (fuel : Nat) : removeHiddenAux fuel [] = [] := by
  cases fuel <;> rfl

theorem removeHiddenAux_id :
    ∀ (fuel : Nat) (l : List Char), hasSub hiddenL l = false →
      removeHiddenAux fuel l = l
  | 0, _, _ => rfl
  | _ + 1, [], _ => rfl
  | fuel + 1, c :: rest, h => by
    rw [hasSub, Bool.or_eq_false_iff] at h
    rw [removeHiddenAux, if_neg (by simp [h.1]),
      removeHiddenAux_id fuel rest h.2]

theorem removeHiddenAux_append :
    ∀ (fuel : Nat) (l : List Char), l.length + 9 ≤ fuel →
      hasSub hiddenL l = false →
      removeHiddenAux fuel (l ++ hiddenL) = l
  | 0, l, hf, _ => absurd hf (by omega)
  | fuel + 1, [], hf, _ => by
    rw [List.nil_append, hiddenL_eq, removeHiddenAux,
      if_pos (by rw [← hiddenL_eq]; exact List.isPrefixOf_iff_prefix.mpr List.prefix_rfl)]
    exact removeHiddenAux_nil fuel
  | fuel + 1, c :: rest, hf, h => by
    have hparts := Bool.or_eq_false_iff.mp (by rw [← hasSub]; exact h)
    have hp : ¬(hiddenL.isPrefixOf (c :: (rest ++ hiddenL)) = true) := by
      intro hpre
      rw [ List.isPrefixOf_iff_prefix] at hpre
      have hpre2 : hiddenL <+: (c :: rest) ++ hiddenL := by
        rw [List.cons_append]; exact hpre
      rcases noStraddle (c :: rest) hpre2 with hcase | hcase
      · have hin : hiddenL <:+: c :: rest := hcase.isInfix
        rw [← hasSub_iff] at hin
        rw [h] at hin
        exact Bool.false_ne_true hin
      · exact List.cons_ne_nil c rest hcase
    rw [List.cons_append, removeHiddenAux, if_neg hp,
      removeHiddenAux_append fuel rest (by simpa using Nat.le_of_succ_le_succ (by simpa [List.length_cons] using hf)) hparts.2]

theorem removeHidden_of_not_contains (s : String) (h : containsHidden s = false) :
    removeHidden s = s := by
  rw [removeHidden, removeHiddenAux_id s.data.length s.data h]

theorem removeHidden_appendHidden (s : String) (h : containsHidden s = false) :
    removeHidden (appendHidden s) = s := by
  rw [removeHidden, appendHidden]
  have hlen : (String.mk (s.data ++ hiddenL)).data.length = s.data.length + 9 := by
    simp [hiddenL_eq]
  rw [hlen]
  rw [show (String.mk (s.data ++ hiddenL)).data = s.data ++ hiddenL from rfl]
  rw [removeHiddenAux_append (s.data.length + 9) s.data (Nat.le_refl _) h]

theorem containsHidden_appendHidden (s : String) :
    containsHidden (appendHidden s) = true := by
  rw [containsHidden, appendHidden]
  have hsuf : hiddenL <:+ s.data ++ hiddenL := List.suffix_append s.data hiddenL
  exact (hasSub_iff hiddenL _).mpr hsuf.isInfix

/-! ### Helper lemmas about the engine model -/

theorem find?_append_fresh (l : List MScene) (t : MScene) (n : Nat)
    (hl : ∀ s ∈ l, s.sid < n) (ht : t.sid = n) :
    (l ++ [t]).find? (fun s => s.sid == n) = some t := by
  induction l with
  | nil => simp [List.find?, ht]
  | cons a l ih =>
    have ha : (a.sid == n) = false := by
      have : a.sid < n := hl a (List.mem_cons_self a l)
      simp [Nat.ne_of_lt this]
    rw [List.cons_append, List.find?]
    rw [ha]
    exact ih (fun s hs => hl s (List.mem_cons_of_mem a hs))

theorem find?_map_update (l : List MScene) (i : Nat) (s t : MScene)
    (hfind : l.find? (fun u => u.sid == i) = some s) (ht : t.sid = s.sid) :
    (l.map (fun u => if u.sid == s.sid then t else u)).find?
      (fun u => u.sid == i) = some t := by
  induction l with
  | nil => simp at hfind
  | cons a l ih =>
    by_cases ha : a.sid = i
    · have hval : (a.sid == i) = true := by simp [ha]
      have has : a = s := by
        rw [List.find?, hval] at hfind
        exact Option.some.inj hfind
      have hts : t.sid = i := by rw [ht, ← has, ha]
      rw [List.map_cons, if_pos (by rw [has]; exact beq_self_eq_true s.sid),
        List.find?, show (t.sid == i) = true by simp [hts]]
    · have hsi : s.sid = i := by
        have := List.find?_some hfind
        simpa using this
      have hval : (a.sid == i) = false := by simp [ha]
      have hne : (a.sid == s.sid) = false := by
        rw [hsi]; simp [ha]
      rw [List.find?, hval] at hfind
      rw [List.map_cons, if_neg (by simp [hne]), List.find?, hval]
      exact ih hfind

theorem current_scene_update (e : Engine) (s t : MScene)
    (hcur : e.current_scene = some s) (ht : t.sid = s.sid) :
    (e.update_scene t).current_scene = some t := by
  rcases hc : e.current with none | i
  · rw [Engine.current_scene, hc] at hcur
    exact absurd hcur (by simp)
  · rw [Engine.current_scene, hc] at hcur
    rw [Engine.update_scene, Engine.current_scene]
    simp only [hc, ht]
    exact find?_map_update e.scenes i s t hcur ht

theorem new_scene_current (e : Engine) (hwf : Engine.wf e) :
    (e.new_scene).current_scene =
      some { sid := e.next_sid, name := "TVTK Scene " ++ toString e.next_sid,
             scene := some { background := 0, foreground := 0, disable_render := false },
             children := [] } := by
  rw [Engine.new_scene, Engine.current_scene]
  exact find?_append_fresh e.scenes _ e.next_sid hwf rfl

/-! ### Helper lemmas about the lifecycle operations -/

theorem str_empty_of_len {s : String} (h : s.data.length = 0) : s = "" :=
  String.ext (List.length_eq_zero.mp h)

theorem str_len_pos {s : String} (h : s ≠ "") : 0 < s.data.length := by
  rcases Nat.eq_zero_or_pos s.data.length with h0 | hpos
  · exact absurd (str_empty_of_len h0) h
  · exact hpos

theorem set_running_eq (b : Base) (v : Bool) :
    b.set_running v = { b with _is_running := v } := by
  cases b with
  | mk nm vis run sv pa ch =>
    by_cases h : run = v
    · simp [Base.set_running, h]
    · simp [Base.set_running, h]

theorem load_fst_saved {σ : Type} (pk : StatePickler σ) (b : Base) :
    (Base._load_saved_state pk b).1._saved_state = "" := by
  rw [Base._load_saved_state]
  split
  · rfl
  · next hneg =>
    exact str_empty_of_len (show b._saved_state.data.length = 0 by omega)

theorem load_fst_running {σ : Type} (pk : StatePickler σ) (b : Base) :
    (Base._load_saved_state pk b).1._is_running = b._is_running := by
  rw [Base._load_saved_state]
  split
  · exact pk.set_state_keeps_running b _
  · rfl

theorem load_snd {σ : Type} (pk : StatePickler σ) (b : Base) :
    (Base._load_saved_state pk b).2 =
      if 0 < b._saved_state.data.length then [b._is_running] else [] := by
  rw [Base._load_saved_state]
  split
  · next hpos => simp [hpos]
  · next hneg => simp [hneg]

/-- A concrete serializer instance over `String` states, used to exercise
theorems with hypotheses on concrete inputs. -/
def witPickler : StatePickler String where
  loads_state := fun s => s
  update_state := fun s => s
  dumps := fun s => String.mk ('P' :: s.data)
  loads := fun s => s
  get_state := fun b => b.name
  set_state := fun b s => { b with name := s }
  dumps_ne := fun s => by
    intro h
    have h2 := congrArg String.data h
    simp at h2
  set_state_keeps_running := fun _ _ => rfl

/-! ### The claims -/

/-- C1: in every code path that can apply a saved state (`__setstate__`,
`__deepcopy__`, `start`), the application of the state is guarded by the
node's `running` flag being true: every recorded application event carries
the value `true`. -/
theorem saved_state_applied_only_while_running {σ : Type}
    (pk : StatePickler σ) (b : Base) (str_state : String) :
    (Base.setstate pk b str_state).2.all (fun x => x) = true ∧
    (Base.deepcopy pk b).2.all (fun x => x) = true ∧
    (Base.start pk b).2.all (fun x => x) = true := by
  refine ⟨?_, ?_, ?_⟩
  · rw [Base.setstate]
    simp [Base.running, Base.init]
  · rw [Base.deepcopy]
    simp [Base.running, Base.init]
  · rw [Base.start, load_snd]
    split
    · simp [set_running_eq]
    · simp

/-- C3: a freshly constructed node is not running and carries no saved
state; `start` sets `running` to true; `stop` sets `running` to false. -/
theorem lifecycle_defaults_start_stop {σ : Type} (pk : StatePickler σ)
    (b : Base) :
    Base.init.running = false ∧
    Base.init._saved_state = "" ∧
    (Base.start pk b).1.running = true ∧
    (Base.stop b).running = false := by
  refine ⟨rfl, rfl, ?_, ?_⟩
  · rw [Base.running, Base.start, load_fst_running, set_running_eq]
  · rw [Base.stop, Base.running, set_running_eq]

/-- C4: `copy.deepcopy` yields a fresh, non-running default instance whose
`_saved_state` is the original's `_saved_state` when that is non-empty and
otherwise the pickled serialization of the original's current state; no
state is applied to it, and the original node is untouched (the embedded
method is a pure function of the original). -/
theorem deepcopy_fresh_instance {σ : Type} (pk : StatePickler σ) (b : Base) :
    Base.deepcopy pk b =
      ({ Base.init with
          _saved_state :=
            if b._saved_state.data.length = 0 then pk.dumps (pk.get_state b)
            else b._saved_state }, []) ∧
    (Base.deepcopy pk b).1._is_running = false := by
  refine ⟨?_, ?_⟩
  · rw [Base.deepcopy]
    simp [Base.running, Base.init]
  · rw [Base.deepcopy]
    simp [Base.running, Base.init]

/-- C5: a pipeline node consists of a name, a visibility flag, a running
flag, a parent back-reference, an optional (possibly empty) serialized
saved-state blob and a list of children — every combination of these six
components is realized by a node — and the base class's `children_ui_list`
property is exactly the children list with nothing added. -/
theorem node_fields_and_children_ui_list :
    (∀ b : Base, b.children_ui_list = b.children) ∧
    ∀ (nm : String) (vis run : Bool) (ss : String) (p : Option Nat)
      (ch : List Nat),
      ∃ b : Base, b.name = nm ∧ b.visible = vis ∧ b.running = run ∧
        b._saved_state = ss ∧ b.parent = p ∧ b.children = ch :=
  ⟨fun _ => rfl,
   fun nm vis run ss p ch =>
    ⟨{ name := nm, visible := vis, _is_running := run, _saved_state := ss,
       parent := p, children := ch }, rfl, rfl, rfl, rfl, rfl, rfl⟩⟩

/-- C8: applying the saved state is one-shot.  `_load_saved_state` always
leaves an empty `_saved_state`; after `start`, `stop`, `__setstate__` and
`__deepcopy__` the invariant "running implies empty saved state" holds;
and a second `start` immediately after a `start` applies no state. -/
theorem saved_state_one_shot_invariant {σ : Type} (pk : StatePickler σ)
    (b : Base) :
    (Base._load_saved_state pk b).1._saved_state = "" ∧
    (Base.start pk b).1._saved_state = "" ∧
    Base.inv (Base.start pk b).1 ∧
    Base.inv (Base.stop b) ∧
    (∀ str_state, Base.inv (Base.setstate pk b str_state).1) ∧
    Base.inv (Base.deepcopy pk b).1 ∧
    (Base.start pk (Base.start pk b).1).2 = [] := by
  refine ⟨load_fst_saved pk b, load_fst_saved pk _, ?_, ?_, ?_, ?_, ?_⟩
  · intro _
    exact load_fst_saved pk _
  · intro h
    rw [Base.stop, set_running_eq] at h
    exact absurd h (by simp)
  · intro str_state h
    rw [Base.setstate] at h ⊢
    simp [Base.running, Base.init] at h ⊢
  · intro h
    rw [Base.deepcopy] at h ⊢
    simp [Base.running, Base.init] at h ⊢
  · rw [Base.start, load_snd]
    have hsv : ((Base.start pk b).1.set_running true)._saved_state = "" := by
      rw [set_running_eq]
      exact load_fst_saved pk _
    rw [if_neg (by rw [hsv]; simp)]

/-- C10: `remove` on a node without a parent is an error-free no-op leaving
the node unchanged, and on a node with a parent it delegates exactly to the
parent's `remove_child` applied to the node. -/
theorem remove_noop_or_delegates
    (f : Nat → Base → Except String Unit × Base) (b : Base) :
    (b.parent = none → Base.remove f b = (Except.ok (), b)) ∧
    (∀ p, b.parent = some p → Base.remove f b = f p b) := by
  refine ⟨?_, ?_⟩
  · intro h
    rw [Base.remove, h]
  · intro p h
    rw [Base.remove, h]

/-- Witness for C10: a parentless node is removed without error and without
change, and a node with parent reference 3 delegates to the given
`remove_child` implementation. -/
theorem remove_noop_or_delegates_witness :
    Base.remove (fun _ c => Base.remove_child Base.init c) Base.init =
      (Except.ok (), Base.init) ∧
    Base.remove (fun _ c => Base.remove_child Base.init c)
        { Base.init with parent := some 3 } =
      Base.remove_child Base.init { Base.init with parent := some 3 } :=
  ⟨(remove_noop_or_delegates _ Base.init).1 rfl,
   (remove_noop_or_delegates _ { Base.init with parent := some 3 }).2 3 rfl⟩

theorem load_pos {σ : Type} (pk : StatePickler σ) (b : Base)
    (h : b._saved_state ≠ "") :
    Base._load_saved_state pk b =
      ({ pk.set_state b (pk.loads b._saved_state) with _saved_state := "" },
       [b._is_running]) := by
  rw [Base._load_saved_state]
  rw [if_pos (str_len_pos h)]

/-- C2: on a non-running node, `__setstate__` re-initializes the node and
stores the deserialized state as a pickled blob in `_saved_state` without
applying it (no application event); a subsequent `start` then materializes
exactly that stored state into the node (one application event, and the
resulting node is the stored state applied to the started node, with the
blob consumed). -/
theorem setstate_defers_and_start_materializes {σ : Type}
    (pk : StatePickler σ) (b : Base) (str_state : String)
    (hrun : b.running = false) :
    Base.setstate pk b str_state =
      ({ Base.init with
          _saved_state :=
            pk.dumps (pk.update_state (pk.loads_state str_state)) }, []) ∧
    (Base.start pk (Base.setstate pk b str_state).1).2 = [true] ∧
    (Base.start pk (Base.setstate pk b str_state).1).1 =
      { pk.set_state { (Base.setstate pk b str_state).1 with _is_running := true }
          (pk.loads (Base.setstate pk b str_state).1._saved_state) with
        _saved_state := "" } := by
  have h1 : Base.setstate pk b str_state =
      ({ Base.init with
          _saved_state :=
            pk.dumps (pk.update_state (pk.loads_state str_state)) }, []) := by
    rw [Base.setstate]
    simp [Base.running, Base.init]
  have hD : (Base.setstate pk b str_state).1._saved_state ≠ "" := by
    rw [h1]
    exact pk.dumps_ne _
  have hload := load_pos pk ((Base.setstate pk b str_state).1.set_running true)
    (by rw [set_running_eq]; exact hD)
  refine ⟨h1, ?_, ?_⟩
  · rw [Base.start, hload, set_running_eq]
  · rw [Base.start, hload, set_running_eq]

/-- Witness for C2: a default node is not running; `__setstate__` defers the
state and the following `start` applies it exactly once. -/
theorem setstate_defers_and_start_materializes_witness :
    Base.init.running = false ∧
    Base.setstate witPickler Base.init "hello" =
      ({ Base.init with
          _saved_state :=
            witPickler.dumps (witPickler.update_state
              (witPickler.loads_state "hello")) }, []) ∧
    (Base.start witPickler (Base.setstate witPickler Base.init "hello").1).2 =
      [true] :=
  ⟨rfl,
   (setstate_defers_and_start_materializes witPickler Base.init "hello" rfl).1,
   (setstate_defers_and_start_materializes witPickler Base.init "hello" rfl).2.1⟩

theorem visible_changed_visible (b : Base) (v : Bool) :
    (Base._visible_changed b v).visible = b.visible := by
  rw [Base._visible_changed, Base.tno_get_label]
  dsimp only
  split_ifs <;> rfl

theorem appendHidden_len (s : String) :
    (appendHidden s).data.length = s.data.length + 9 := by
  simp [appendHidden, hiddenL_eq]

/-- C9 counterexample: the claim "for every node with a non-empty name,
hiding appends the suffix at most once and showing removes the suffix,
restoring the original name" fails on a node whose name already contains
`' [Hidden]'` in the middle: hiding `a [Hidden]b` changes nothing, and
showing afterwards yields `ab`, not the original name. -/
theorem hide_show_restore_cex :
    ({ Base.init with name := "a [Hidden]b" } : Base).name ≠ "" ∧
    ((({ Base.init with name := "a [Hidden]b" } : Base).set_visible
        false).set_visible true).name = "ab" ∧
    "ab" ≠ "a [Hidden]b" := by
  refine ⟨by decide, by decide, by decide⟩

/-- C9 (amended): hiding appends the suffix `' [Hidden]'` at most once —
exactly once for a visible node whose name does not already contain the
tag, and zero times (name unchanged) when the name already contains it —
repeated firing of the hide handler never duplicates the tag, and showing
removes the left-to-right non-overlapping occurrences of the tag, which
restores the original name exactly when the name did not already contain
the tag; `_hideshow` toggles the `visible` flag. -/
theorem hide_show_name_behaviour :
    (∀ b : Base, b.name ≠ "" → containsHidden b.name = false →
      b.visible = true →
      (b.set_visible false).name = appendHidden b.name ∧
      (Base._visible_changed (b.set_visible false) false).name =
        (b.set_visible false).name ∧
      ((b.set_visible false).set_visible true).name = b.name) ∧
    (∀ b : Base, b.name ≠ "" → containsHidden b.name = true →
      (b.set_visible false).name = b.name) ∧
    (∀ b : Base, (Base._hideshow b).visible = !b.visible) := by
  refine ⟨?_, ?_, ?_⟩
  · intro b hne hcon hvis
    have hlen : b.name.data.length ≠ 0 := (str_len_pos hne).ne'
    have hhide : b.set_visible false =
        { b with visible := false, name := appendHidden b.name } := by
      rw [Base.set_visible, if_neg (by rw [hvis]; simp)]
      rw [Base._visible_changed, Base.tno_get_label]
      dsimp only
      rw [if_neg hlen]
      simp [hcon]
    have hlen2 : (appendHidden b.name).data.length ≠ 0 := by
      rw [appendHidden_len]; omega
    refine ⟨by rw [hhide], ?_, ?_⟩
    · rw [hhide, Base._visible_changed, Base.tno_get_label]
      dsimp only
      rw [if_neg hlen2]
      simp [containsHidden_appendHidden]
    · rw [hhide, Base.set_visible]
      rw [if_neg (by simp)]
      rw [Base._visible_changed, Base.tno_get_label]
      dsimp only
      rw [if_neg hlen2]
      simp [removeHidden_appendHidden b.name hcon]
  · intro b hne hcon
    by_cases hv : b.visible = false
    · rw [Base.set_visible, if_pos hv]
    · rw [Base.set_visible, if_neg hv]
      rw [Base._visible_changed, Base.tno_get_label]
      dsimp only
      rw [if_neg (str_len_pos hne).ne']
      simp [hcon]
  · intro b
    cases hv : b.visible
    · simp [Base._hideshow, Base.set_visible, hv, visible_changed_visible]
    · simp [Base._hideshow, Base.set_visible, hv, visible_changed_visible]

/-- Witness for C9: a visible node named `n`: hiding yields `n [Hidden]`, a
re-fired hide handler leaves it alone, and showing restores `n`. -/
theorem hide_show_name_behaviour_witness :
    (({ Base.init with name := "n" } : Base).set_visible false).name =
      appendHidden "n" ∧
    ((({ Base.init with name := "n" } : Base).set_visible false).set_visible
      true).name = "n" ∧
    (({ Base.init with name := "a [Hidden]b" } : Base).set_visible false).name =
      "a [Hidden]b" ∧
    (Base._hideshow { Base.init with name := "n" }).visible = false :=
  ⟨(hide_show_name_behaviour.1 { Base.init with name := "n" }
      (by decide) (by decide) rfl).1,
   (hide_show_name_behaviour.1 { Base.init with name := "n" }
      (by decide) (by decide) rfl).2.2,
   hide_show_name_behaviour.2.1 { Base.init with name := "a [Hidden]b" }
      (by decide) (by decide),
   hide_show_name_behaviour.2.2 { Base.init with name := "n" }⟩

/-- C6: `gcf` returns the engine's current scene when one exists; when
there is none it behaves exactly as `figure()`, which creates a new scene,
registers it and returns it, so `gcf` never returns `None` (and never
raises). -/
theorem gcf_returns_or_creates_current_scene (e : Engine)
    (hwf : Engine.wf e) :
    (∀ s, e.current_scene = some s → gcf e = (e, Except.ok s)) ∧
    (e.current_scene = none →
      gcf e = figure e none none none ∧
      ∃ s, (gcf e).2 = Except.ok s ∧
        (gcf e).1.scenes.length = e.scenes.length + 1) := by
  refine ⟨?_, ?_⟩
  · intro s hs
    rw [gcf, hs]
  · intro h
    have hg : gcf e = figure e none none none := by rw [gcf, h]
    refine ⟨hg, ?_⟩
    rw [hg]
    have hnew := new_scene_current e hwf
    unfold figure
    dsimp only
    rw [hnew]
    dsimp only
    refine ⟨_, rfl, ?_⟩
    simp [Engine.update_scene, Engine.new_scene]

/-- Witness for C6: on an empty well-formed engine with no current scene,
`gcf` creates and returns a scene. -/
theorem gcf_returns_or_creates_current_scene_witness :
    ∃ s, (gcf { scenes := [], current := none, next_sid := 0 }).2 =
        Except.ok s ∧
      (gcf { scenes := [], current := none, next_sid := 0 }).1.scenes.length =
        ({ scenes := [], current := none, next_sid := 0 } : Engine).scenes.length + 1 :=
  ((gcf_returns_or_creates_current_scene
      { scenes := [], current := none, next_sid := 0 }
      (by intro s hs; cases hs)).2 rfl).2

/-- C7: `clf` never propagates an exception (the only possible exception,
`AttributeError`, is caught and ignored), and on an engine whose current
scene has a live render window it replaces that scene's children list with
the empty list, with rendering re-enabled afterwards. -/
theorem clf_clears_children_and_swallows_attribute_error (e : Engine) :
    (clf e).2 = Except.ok () ∧
    (∀ s tv, e.current_scene = some s → s.scene = some tv →
      (clf e).1.current_scene =
        some { s with children := [],
                      scene := some { tv with disable_render := false } }) := by
  refine ⟨?_, ?_⟩
  · unfold clf
    rcases hb : clf_body e with ⟨e1, exc⟩
    rcases exc with err | u
    · cases err
      rfl
    · rfl
  · intro s tv hs htv
    have hbody : clf_body e =
        (((e.update_scene { s with scene := some { tv with disable_render := true } }).update_scene { s with children := [], scene := some { tv with disable_render := true } }).update_scene { s with children := [], scene := some { tv with disable_render := false } },
          Except.ok ()) := by
      unfold clf_body gcf
      rw [hs]
      dsimp only
      rw [htv]
    rw [clf, hbody]
    dsimp only
    have h1 := current_scene_update e s
      { s with scene := some { tv with disable_render := true } } hs rfl
    have h2 := current_scene_update _ _
      { s with children := [], scene := some { tv with disable_render := true } } h1 rfl
    exact current_scene_update _ _
      { s with children := [], scene := some { tv with disable_render := false } } h2 rfl

/-- A one-scene engine used to exercise `clf` on a concrete input. -/
def clfWitEngine : Engine :=
  { scenes := [{ sid := 0, name := "s", scene := some { background := 1, foreground := 2, disable_render := true }, children := [5] }],
    current := some 0,
    next_sid := 1 }

/-- Witness for C7: on the one-scene engine, `clf` returns without exception
and empties the current scene's children, leaving rendering enabled. -/
theorem clf_clears_children_witness :
    (clf clfWitEngine).2 = Except.ok () ∧
    (clf clfWitEngine).1.current_scene =
      some { sid := 0, name := "s", scene := some { background := 1, foreground := 2, disable_render := false }, children := [] } :=
  ⟨(clf_clears_children_and_swallows_attribute_error clfWitEngine).1,
   (clf_clears_children_and_swallows_attribute_error clfWitEngine).2
     { sid := 0, name := "s", scene := some { background := 1, foreground := 2, disable_render := true }, children := [5] }
     { background := 1, foreground := 2, disable_render := true } rfl rfl⟩

/-- Witness for C8: a running node carrying a pending blob: loading clears
the blob, and a second `start` after a `start` applies nothing. -/
theorem saved_state_one_shot_invariant_witness :
    (Base._load_saved_state witPickler { Base.init with _is_running := true, _saved_state := "x" }).1._saved_state = "" ∧
    (Base.start witPickler (Base.start witPickler { Base.init with _is_running := true, _saved_state := "x" }).1).2 = [] :=
  ⟨(saved_state_one_shot_invariant witPickler { Base.init with _is_running := true, _saved_state := "x" }).1,
   (saved_state_one_shot_invariant witPickler { Base.init with _is_running := true, _saved_state := "x" }).2.2.2.2.2.2⟩
